import Mathlib

/-!
Shallow embedding of the route-parsing and POI-aggregation core of the
Akshar.AI Synapse repository (src/utils/route_processor.py and
src/utils/poi_finder.py), together with theorems settling the frozen
claims about that code.

The Python code normalizes the user input with
`' '.join(user_input.lower().split())`, so the string seen by every
regular expression has single spaces between nonempty words and no
leading or trailing whitespace.  The embedding therefore works on the
word list produced by lowercasing and splitting, and each of the five
regular-expression patterns of `parse_input` is translated into an
explicit matcher on that word list that reproduces Python's
leftmost-match, greedy-with-backtracking semantics for that pattern,
as justified in the doc comment of each matcher.
-/

namespace Akshar

/-- Whitespace test used for `str.split()` and `str.strip()`. -/
def pySpace (c : Char) : Bool := c.isWhitespace

/-- Word splitter: `user_input.lower().split()`.  Lowercases every
character and splits on runs of whitespace, discarding empty pieces,
so every produced word is nonempty and whitespace-free. -/
def wordsAux : List Char → List Char → List String
  | [], acc => if acc.isEmpty then [] else [String.mk acc.reverse]
  | c :: cs, acc =>
    if pySpace c then
      (if acc.isEmpty then [] else [String.mk acc.reverse]) ++ wordsAux cs []
    else
      wordsAux cs (c :: acc)

/-- The word list of the normalized input: `user_input.lower().split()`. -/
def pyWords (s : String) : List String :=
  wordsAux (s.toList.map Char.toLower) []

/-- Python `str.strip()`: drop whitespace from both ends. -/
def pyStrip (s : String) : String :=
  String.mk (((s.toList.dropWhile pySpace).reverse.dropWhile pySpace).reverse)

/-- Python substring test `sub in s`. -/
def strContains (s sub : String) : Bool :=
  s.toList.tails.any (fun t => sub.toList.isPrefixOf t)

/-- The `transport_modes` dictionary of `parse_input`
(route_processor.py lines 27-48), as a list in insertion order, which
is the iteration order of a Python dict. -/
def transport_modes : List (String × String) :=
  [("car", "DRIVE"), ("driving", "DRIVE"), ("drive", "DRIVE"),
   ("walk", "WALK"), ("walking", "WALK"), ("foot", "WALK"), ("on foot", "WALK"),
   ("bicycle", "BICYCLE"), ("bike", "BICYCLE"), ("cycling", "BICYCLE"),
   ("bicycling", "BICYCLE"), ("cycle", "BICYCLE"),
   ("transit", "TRANSIT"), ("bus", "TRANSIT"), ("train", "TRANSIT"),
   ("public transport", "TRANSIT"), ("public transportation", "TRANSIT"),
   ("metro", "TRANSIT"), ("subway", "TRANSIT"), ("rail", "TRANSIT")]

/-- First transport-mode table entry whose key is a substring of `s`:
the loop `for key in transport_modes: if key in text: ...` of
route_processor.py (lines 85-88, 92-95 and 114-119). -/
def findModeEntry (s : String) : Option (String × String) :=
  transport_modes.find? (fun kv => strContains s kv.1)

/-- Value of the first transport-mode table entry whose key is a
substring of `s` (the loops of lines 85-88 and 92-95 keep only the
mapped value). -/
def find_mode (s : String) : Option String :=
  (findModeEntry s).map (fun kv => kv.2)

/-- Membership in the character class `[A-Za-z0-9\s,.-]` used by the
origin/destination capturing groups of all five patterns. -/
def classChar (c : Char) : Bool :=
  c.isAlpha || c.isDigit || c.isWhitespace || c = ',' || c = '.' || c = '-'

/-- A word all of whose characters lie in the capture class; a capturing
group can span this word. -/
def cleanWord (w : String) : Bool := w.toList.all classChar

/-- Tests whether the first character of `w` lies in the capture class
(false for the empty string). -/
def headClass (w : String) : Bool :=
  match w.toList with
  | [] => false
  | c :: _ => classChar c

/-- Longest run of capture-class characters at the start of `w`. -/
def takeClass (w : String) : String :=
  String.mk (w.toList.takeWhile classChar)

/-- Raw text captured by a greedy `[A-Za-z0-9\s,.-]+` group that starts
at the first character of the given word list (words are separated by
single spaces in the normalized string).  The run extends through whole
clean words, the separating spaces (which are in the class), and the
class-prefix of the first word containing a character outside the class;
a trailing space is kept when that prefix is empty, exactly as the raw
regex capture would keep it (the caller strips it). -/
def captureRun : List String → String
  | [] => ""
  | w :: rest =>
    if cleanWord w then
      match rest with
      | [] => w
      | _ => w ++ " " ++ captureRun rest
    else takeClass w

/-- All words of a list lie inside the capture class. -/
def allClean (l : List String) : Bool := l.all cleanWord

/-- Greedy split point for the core `GROUP1\s+to\s+GROUP2` of patterns
1-4, with GROUP1 starting at word index `start`: because GROUP1 must be
followed by whitespace it must end at a word boundary, so a match needs
an index `k` with words `start..k` fully inside the class, word `k+1`
equal to `to`, and word `k+2` starting with a class character (GROUP2
needs at least one character).  Greedy backtracking of GROUP1 selects
the largest such `k`. -/
def splitKs (ws : List String) (start : Nat) : Option Nat :=
  (List.range ws.length).reverse.find? (fun k =>
    decide (start ≤ k) &&
    allClean ((ws.drop start).take (k - start + 1)) &&
    decide (ws.getD (k + 1) "" = "to") &&
    decide (k + 2 < ws.length) &&
    headClass (ws.getD (k + 2) ""))

/-- Captures of `([A-Za-z0-9\s,.-]+)\s+to\s+([A-Za-z0-9\s,.-]+)` with
the first group starting at word index `start`.  The optional trailing
`(?:\s+by\s+([A-Za-z\s]+))?` of patterns 1 and 2 always matches empty:
the second group's greedy run stops only at the end of the string or at
a character outside its class, and `\s` is inside the class, so the
whitespace the optional group needs can never follow; hence no third
capture is ever produced and the matchers below return `none` for it. -/
def tailMatch (ws : List String) (start : Nat) : Option (String × String) :=
  match splitKs ws start with
  | some k =>
    some (String.intercalate " " ((ws.drop start).take (k - start + 1)),
          captureRun (ws.drop (k + 2)))
  | none => none

/-- Suffix test on strings (the literal of a searched pattern must end
exactly where a following `\s+` begins, i.e. at the end of a word). -/
def endsWithStr (w suffix : String) : Bool :=
  suffix.toList.isSuffixOf w.toList

/-- Pattern 1, `from\s+G1\s+to\s+G2(?:\s+by\s+G3)?`, searched
unanchored: the literal `from` must be immediately followed by
whitespace, so it must be the suffix of a word; `re.search` takes the
leftmost such word from which the tail matches. -/
def pattern1Match (ws : List String) : Option (String × String) :=
  match (List.range ws.length).find? (fun f =>
      endsWithStr (ws.getD f "") "from" && (tailMatch ws (f + 1)).isSome) with
  | some f => tailMatch ws (f + 1)
  | none => none

/-- Pattern 2, `^G1\s+to\s+G2(?:\s+by\s+G3)?`: anchored at the start,
so it is the core match with the first group starting at word 0. -/
def pattern2Match (ws : List String) : Option (String × String) :=
  tailMatch ws 0

/-- Tail of patterns 3 and 4 after their literal prefix: the greedy
optional `(?:from\s+)?` consumes the next word when it is exactly
`from` and the rest then matches, and otherwise matches empty. -/
def optFromTail (ws : List String) (start : Nat) : Option (String × String) :=
  if ws.getD start "" = "from" then
    match tailMatch ws (start + 1) with
    | some r => some r
    | none => tailMatch ws start
  else tailMatch ws start

/-- Pattern 3, `directions\s+(?:from\s+)?G1\s+to\s+G2`, searched
unanchored: leftmost word ending in `directions` from which the
optional-`from` tail matches. -/
def pattern3Match (ws : List String) : Option (String × String) :=
  match (List.range ws.length).find? (fun d =>
      endsWithStr (ws.getD d "") "directions" && (optFromTail ws (d + 1)).isSome) with
  | some d => optFromTail ws (d + 1)
  | none => none

/-- Pattern 4, `how\s+to\s+get\s+(?:from\s+)?G1\s+to\s+G2`, searched
unanchored: a word ending in `how` followed by the exact words `to` and
`get`, then the optional-`from` tail. -/
def pattern4Match (ws : List String) : Option (String × String) :=
  match (List.range ws.length).find? (fun h =>
      endsWithStr (ws.getD h "") "how" &&
      decide (ws.getD (h + 1) "" = "to") &&
      decide (ws.getD (h + 2) "" = "get") &&
      (optFromTail ws (h + 3)).isSome) with
  | some h => optFromTail ws (h + 3)
  | none => none

/-- Pattern 5, `^G1\s+to\s+G2$`: both groups anchored, so both must be
unions of whole clean words covering the entire word list, split at a
`to` word; greedy backtracking again selects the largest split index. -/
def pattern5Match (ws : List String) : Option (String × String) :=
  match (List.range ws.length).reverse.find? (fun k =>
      allClean (ws.take (k + 1)) &&
      decide (ws.getD (k + 1) "" = "to") &&
      decide (k + 2 < ws.length) &&
      allClean (ws.drop (k + 2))) with
  | some k =>
    some (String.intercalate " " (ws.take (k + 1)),
          String.intercalate " " (ws.drop (k + 2)))
  | none => none

/-- The `for pattern in [pattern1, .., pattern5]` loop of
route_processor.py line 71: first matching pattern wins.  Each matcher
yields the two location groups; the third group is always absent (see
`tailMatch`). -/
def try_patterns (ws : List String) : Option (String × String) :=
  match pattern1Match ws with
  | some r => some r
  | none =>
  match pattern2Match ws with
  | some r => some r
  | none =>
  match pattern3Match ws with
  | some r => some r
  | none =>
  match pattern4Match ws with
  | some r => some r
  | none => pattern5Match ws

/-- The `location_indicators` list of route_processor.py line 107. -/
def location_indicators : List String :=
  ["from", "to", "at", "in", "near", "starting", "ending", "origin", "destination"]

/-- The inner `while` loop of the fallback (lines 130-134): starting at
the word after an indicator, concatenate words (each with a trailing
space) until the next indicator word or the end of the sentence. -/
def collectLoc : List String → String
  | [] => ""
  | w :: rest =>
    if location_indicators.contains w then "" else w ++ " " ++ collectLoc rest

/-- The outer `for i, word in enumerate(words)` loop of the fallback
(lines 126-137): every indicator word that is not last contributes the
(stripped) phrase collected after it, provided it is nonempty. -/
def candidatesAux : List String → List String
  | [] => []
  | w :: rest =>
    (if location_indicators.contains w && !rest.isEmpty then
      (let p := collectLoc rest
       if p = "" then [] else [pyStrip p])
     else []) ++ candidatesAux rest

/-- Fallback branch of `parse_input` (lines 103-144).  The mode scan of
lines 114-119 also erases the found keyword from its local copy of the
normalized string, but `words` was split from that string on line 109,
before the erasure, so the erasure cannot influence anything computed
afterwards; only the mapped value survives. -/
def parseFallback (ws : List String) (normalized : String) :
    Option String × Option String × Option String :=
  let potential_mode :=
    match findModeEntry normalized with
    | some kv => kv.2
    | none => "DRIVE"
  match candidatesAux ws with
  | c0 :: c1 :: _ => (some c0, some c1, some potential_mode)
  | _ => (none, none, none)

/-- Mode resolution after a pattern match (lines 80-99).  The scan of a
captured `by`-phrase (lines 82-88) is skipped because the third group is
always `None` (see `tailMatch`); the whole normalized input is scanned
instead, and `DRIVE` is the final default. -/
def resolveMode (normalized : String) : String :=
  match find_mode normalized with
  | some m => m
  | none => "DRIVE"

/-- The `parse_input` function of route_processor.py (lines 13-144). -/
def parse_input (user_input : String) :
    Option String × Option String × Option String :=
  let ws := pyWords user_input
  let normalized := String.intercalate " " ws
  match try_patterns ws with
  | some (o, d) => (some (pyStrip o), some (pyStrip d), some (resolveMode normalized))
  | none => parseFallback ws normalized

/-- Variant of the pattern loop with pattern 5 removed (claim C10). -/
def try_patterns_noP5 (ws : List String) : Option (String × String) :=
  match pattern1Match ws with
  | some r => some r
  | none =>
  match pattern2Match ws with
  | some r => some r
  | none =>
  match pattern3Match ws with
  | some r => some r
  | none => pattern4Match ws

/-- Variant of `parse_input` with pattern 5 removed (claim C10). -/
def parse_input_noP5 (user_input : String) :
    Option String × Option String × Option String :=
  let ws := pyWords user_input
  let normalized := String.intercalate " " ws
  match try_patterns_noP5 ws with
  | some (o, d) => (some (pyStrip o), some (pyStrip d), some (resolveMode normalized))
  | none => parseFallback ws normalized

/-! Embedding of `poi_finder.py`.  The network calls are replaced by
explicit parameters: the decoded route geometry for the Directions call
of `get_route_points`, and an oracle `search` giving each sampled
point's Places response, where `none` stands for a non-`OK` status or a
raised exception (both are caught and skipped by the per-point
`try`/`except`, lines 192-231). -/

/-- A decoded polyline vertex `(lat, lng)`. -/
def RoutePoint : Type := ℚ × ℚ

/-- Decidable equality of route points, inherited from the pair. -/
instance : DecidableEq RoutePoint := instDecidableEqProd

/-- The pure sampling logic of `get_route_points` (poi_finder.py lines
101-121) applied to the decoded polyline: at most 5 points, all of them
when the geometry is short, otherwise the endpoints and three interior
quarter points. -/
def get_route_points_sample {α : Type} [Inhabited α] (points : List α) : List α :=
  let route_length := points.length
  if route_length ≤ 5 then points
  else [points[0]!, points[route_length / 4]!, points[route_length / 2]!,
        points[3 * route_length / 4]!, points[route_length - 1]!]

/-- One entry of a Places nearby-search response, with the optional
JSON fields kept optional exactly where the source uses `.get` with a
default (`vicinity`, `rating`, `user_ratings_total`, `types`) or a
presence check (`photos`). -/
structure Place where
  name : String
  place_id : String
  vicinity : Option String
  rating : Option ℚ
  user_ratings_total : Option ℕ
  location : RoutePoint
  types : List String
  photos : List String
deriving DecidableEq

/-- A formatted POI dictionary as built in poi_finder.py lines 209-222. -/
structure Poi where
  name : String
  place_id : String
  address : String
  rating : ℚ
  user_ratings_total : ℕ
  location : RoutePoint
  types : List String
  photo_reference : Option String
deriving DecidableEq

/-- Formatting of one place (lines 209-222): absent `vicinity` becomes
`""`, absent `rating` becomes `0`, absent `user_ratings_total` becomes
`0`, and `photo_reference` is set only when the place has a photo. -/
def mkPoi (p : Place) : Poi :=
  { name := p.name
    place_id := p.place_id
    address := p.vicinity.getD ""
    rating := p.rating.getD 0
    user_ratings_total := p.user_ratings_total.getD 0
    location := p.location
    types := p.types
    photo_reference := p.photos.head? }

/-- Body of the inner `for place in data["results"]` loop (lines
203-224): append the formatted place unless a POI with the same
`place_id` is already present. -/
def addPlace (acc : List Poi) (p : Place) : List Poi :=
  if acc.any (fun poi => poi.place_id == p.place_id) then acc
  else acc ++ [mkPoi p]

/-- Composite ranking score of line 236:
`x["rating"] * min(x["user_ratings_total"], 100)`. -/
def poiScore (p : Poi) : ℚ :=
  p.rating * ((min p.user_ratings_total 100 : ℕ) : ℚ)

/-- Stable descending insertion used to embed
`all_pois.sort(key=..., reverse=True)`: a new element moves ahead of an
earlier one only when its score is strictly larger, which keeps the
original relative order of equal keys, exactly the stability guarantee
of Python's sort with `reverse=True`. -/
def insertPoiDesc (x : Poi) : List Poi → List Poi
  | [] => [x]
  | y :: ys => if poiScore y < poiScore x then x :: y :: ys else y :: insertPoiDesc x ys

/-- Stable sort by descending composite score (line 236).  Python's
`list.sort` is a stable sort, and every stable sort of a list by the
same total preorder yields the same list, so this insertion sort is
extensionally the sort performed by the source. -/
def sortPois : List Poi → List Poi
  | [] => []
  | x :: xs => insertPoiDesc x (sortPois xs)

/-- The `for i, point in enumerate(route_points)` loop of lines
177-231: each point's search outcome is folded into the deduplicated
accumulator; a `none` outcome (non-`OK` status or exception) is
skipped and the loop continues with what was already gathered. -/
def gatherPois (route_points : List RoutePoint)
    (search : RoutePoint → Option (List Place)) : List Poi :=
  route_points.foldl (fun acc pt =>
    match search pt with
    | some places => places.foldl addPlace acc
    | none => acc) []

/-- The aggregation core of `find_poi_along_route` (poi_finder.py lines
127-248): empty route geometry (a failed or empty Directions call)
returns `[]` immediately; otherwise the per-point loop gathers the
deduplicated POIs, the list is sorted by descending score, and the
first `max_results` entries are returned. -/
def find_poi_along_route (route_points : List RoutePoint)
    (search : RoutePoint → Option (List Place)) (max_results : ℕ) : List Poi :=
  if route_points.isEmpty then []
  else (sortPois (gatherPois route_points search)).take max_results

/-- All places contributed by successful searches, in point-iteration
order: the sequence the dedup loop of `find_poi_along_route` scans. -/
def collectedPlaces (route_points : List RoutePoint)
    (search : RoutePoint → Option (List Place)) : List Place :=
  (route_points.filterMap search).flatten

/-! Embedding of the output formatting of `get_route_info`
(route_processor.py lines 196-244).  The successful-response branch is
a pure function of the route object; its inputs are modelled by the
fields the code reads: total duration seconds, total distance meters,
and the steps of each leg. -/

/-- One step of a Directions response leg. -/
structure StepIn where
  instruction : String
  distanceMeters : ℕ
deriving DecidableEq

/-- The fields of a successful Routes API response that the formatting
branch reads. -/
structure RouteIn where
  durationSeconds : ℕ
  distanceMeters : ℕ
  legs : List (List StepIn)
deriving DecidableEq

/-- A formatted step as appended on lines 231-234. -/
structure StepOut where
  instruction : String
  distance : String
deriving DecidableEq

/-- The result dictionary of lines 236-242. -/
structure RouteInfo where
  origin : String
  destination : String
  distance : String
  duration : String
  steps : List StepOut
deriving DecidableEq

/-- Kilometre figure with one decimal digit: `f"{m/1000:.1f}"`.
Implemented as round-half-up on the exact rational `m/1000`; Python
formats the nearest binary double of `m/1000`, which agrees except
possibly at exact decimal ties, where the double's representation error
decides (e.g. both give `"0.5"` at `m = 450`). -/
def formatKm1 (m : ℕ) : String :=
  let tenths := (m + 50) / 100
  toString (tenths / 10) ++ "." ++ toString (tenths % 10)

/-- Header total distance (lines 214-216): always kilometres. -/
def format_total_distance (m : ℕ) : String := formatKm1 m ++ " km"

/-- Per-step distance (lines 228-229): integer metres below 1000,
kilometres with one decimal otherwise. -/
def format_step_distance (m : ℕ) : String :=
  if m < 1000 then toString m ++ " m" else formatKm1 m ++ " km"

/-- The pluralizing suffix `'s' if n > 1 else ''`. -/
def pluralS (n : ℕ) : String := if n > 1 then "s" else ""

/-- Duration formatting of lines 201-211: hours and minutes when
nonzero, seconds only when the total is under an hour, stripped. -/
def formatDuration (total : ℕ) : String :=
  let hours := total / 3600
  let remainder := total % 3600
  let minutes := remainder / 60
  let seconds := remainder % 60
  pyStrip
    ((if hours > 0 then toString hours ++ " hour" ++ pluralS hours ++ " " else "") ++
     (if minutes > 0 then toString minutes ++ " minute" ++ pluralS minutes ++ " " else "") ++
     (if seconds > 0 && hours = 0 then toString seconds ++ " second" ++ pluralS seconds else ""))

/-- The successful branch of `get_route_info` (lines 196-244): format
duration and total distance, then every step of every leg in order. -/
def get_route_info_fmt (origin destination : String) (r : RouteIn) : RouteInfo :=
  { origin := origin
    destination := destination
    distance := format_total_distance r.distanceMeters
    duration := formatDuration r.durationSeconds
    steps := r.legs.flatten.map (fun st =>
      { instruction := st.instruction, distance := format_step_distance st.distanceMeters }) }

/-! Concrete sample data used to instantiate the theorems below. -/

/-- A sampled route point. -/
def examplePointA : RoutePoint := ((0 : ℚ), (0 : ℚ))

/-- Another sampled route point. -/
def examplePointB : RoutePoint := ((1 : ℚ), (1 : ℚ))

/-- A place with rating 4.5 and 200 reviews: composite score
`4.5 * min(200, 100) = 450`. -/
def placeHigh : Place :=
  { name := "Highway Diner"
    place_id := "pid-high"
    vicinity := some "MH-48"
    rating := some 4.5
    user_ratings_total := some 200
    location := examplePointA
    types := ["restaurant"]
    photos := ["photoref-1"] }

/-- A place with rating 4.8 and 10 reviews: composite score
`4.8 * min(10, 100) = 48`. -/
def placeLow : Place :=
  { name := "Boutique Cafe"
    place_id := "pid-low"
    vicinity := some "Lane 3"
    rating := some 4.8
    user_ratings_total := some 10
    location := examplePointA
    types := ["restaurant", "cafe"]
    photos := [] }

/-- A place whose provider result carries no rating fields. -/
def placeUnrated : Place :=
  { name := "New Stall"
    place_id := "pid-new"
    vicinity := none
    rating := none
    user_ratings_total := none
    location := examplePointB
    types := []
    photos := [] }

/-- The same place as `placeHigh` (same `place_id`) as returned at a
different sample point, with differing descriptive fields. -/
def placeHighCopy : Place :=
  { placeHigh with name := "Highway Diner east gate", vicinity := some "MH-48 east" }

/-- Search oracle returning the three ranking examples at every point. -/
def exampleSearchRank : RoutePoint → Option (List Place) :=
  fun _ => some [placeLow, placeHigh, placeUnrated]

/-- Search oracle returning the same `place_id` at two points with
different field values. -/
def exampleSearchDup : RoutePoint → Option (List Place) :=
  fun pt => if pt = examplePointA then some [placeHigh, placeLow] else some [placeHighCopy]

/-- Search oracle failing at `examplePointB` (non-`OK` status or
exception) and succeeding elsewhere. -/
def exampleSearchFail : RoutePoint → Option (List Place) :=
  fun pt => if pt = examplePointB then none else some [placeHigh]

/-- A route response whose total distance is 450 meters. -/
def exampleRoute450 : RouteIn :=
  { durationSeconds := 3725
    distanceMeters := 450
    legs := [[{ instruction := "Head north", distanceMeters := 450 },
              { instruction := "Continue onto the highway", distanceMeters := 12345 }]] }

end Akshar

namespace Akshar

theorem mk_ne_empty {l : List Char} (h : l ≠ []) : String.mk l ≠ "" := by
  intro hc
  apply h
  have hd := congrArg String.data hc
  simpa using hd

theorem mem_wordsAux_ne_empty (cs : List Char) :
    ∀ (acc : List Char) (w : String), w ∈ wordsAux cs acc → w ≠ "" := by
  induction cs with
  | nil =>
    intro acc w hw
    rw [wordsAux] at hw
    split at hw
    · simp at hw
    · next h =>
      simp only [List.mem_singleton] at hw
      subst hw
      exact mk_ne_empty (by simpa using fun h0 => h (by simp [h0]))
  | cons c cs ih =>
    intro acc w hw
    rw [wordsAux] at hw
    split at hw
    · rcases List.mem_append.1 hw with h1 | h2
      · split at h1
        · simp at h1
        · next h =>
          simp only [List.mem_singleton] at h1
          subst h1
          exact mk_ne_empty (by simpa using fun h0 => h (by simp [h0]))
      · exact ih [] w h2
    · exact ih (c :: acc) w hw

theorem pyWords_ne_empty (s : String) : ∀ w ∈ pyWords s, w ≠ "" :=
  fun w hw => mem_wordsAux_ne_empty _ _ w hw

theorem mem_of_getD_eq {ws : List String} {i : ℕ} {v : String}
    (hv : v ≠ "") (h : ws.getD i "" = v) : v ∈ ws := by
  rw [List.getD_eq_getElem?_getD] at h
  cases hg : ws[i]? with
  | none => rw [hg] at h; exact absurd h.symm hv
  | some w =>
    rw [hg] at h
    simp only [Option.getD_some] at h
    subst h
    exact List.getElem?_mem hg

end Akshar

namespace Akshar

theorem splitKs_eq_none_of_no_to {ws : List String} (start : ℕ)
    (h : "to" ∉ ws) : splitKs ws start = none := by
  rw [splitKs, List.find?_eq_none]
  intro k _ hk
  rw [Bool.and_eq_true, Bool.and_eq_true, Bool.and_eq_true, Bool.and_eq_true] at hk
  exact h (mem_of_getD_eq (by decide) (of_decide_eq_true hk.1.1.2))

theorem tailMatch_eq_none_of_no_to {ws : List String} (start : ℕ)
    (h : "to" ∉ ws) : tailMatch ws start = none := by
  rw [tailMatch, splitKs_eq_none_of_no_to start h]

theorem optFromTail_eq_none_of_no_to {ws : List String} (start : ℕ)
    (h : "to" ∉ ws) : optFromTail ws start = none := by
  rw [optFromTail]
  split
  · rw [tailMatch_eq_none_of_no_to (start + 1) h, tailMatch_eq_none_of_no_to start h]
  · exact tailMatch_eq_none_of_no_to start h

theorem pattern1Match_eq_none_of_no_to {ws : List String}
    (h : "to" ∉ ws) : pattern1Match ws = none := by
  rw [pattern1Match]
  have hf : (List.range ws.length).find? (fun f =>
      endsWithStr (ws.getD f "") "from" && (tailMatch ws (f + 1)).isSome) = none := by
    rw [List.find?_eq_none]
    intro f _ hp
    rw [Bool.and_eq_true, tailMatch_eq_none_of_no_to (f + 1) h] at hp
    simp at hp
  rw [hf]

theorem pattern2Match_eq_none_of_no_to {ws : List String}
    (h : "to" ∉ ws) : pattern2Match ws = none :=
  tailMatch_eq_none_of_no_to 0 h

theorem pattern3Match_eq_none_of_no_to {ws : List String}
    (h : "to" ∉ ws) : pattern3Match ws = none := by
  rw [pattern3Match]
  have hf : (List.range ws.length).find? (fun d =>
      endsWithStr (ws.getD d "") "directions" && (optFromTail ws (d + 1)).isSome) = none := by
    rw [List.find?_eq_none]
    intro d _ hp
    rw [Bool.and_eq_true, optFromTail_eq_none_of_no_to (d + 1) h] at hp
    simp at hp
  rw [hf]

theorem pattern4Match_eq_none_of_no_to {ws : List String}
    (h : "to" ∉ ws) : pattern4Match ws = none := by
  rw [pattern4Match]
  have hf : (List.range ws.length).find? (fun f =>
      endsWithStr (ws.getD f "") "how" &&
      decide (ws.getD (f + 1) "" = "to") &&
      decide (ws.getD (f + 2) "" = "get") &&
      (optFromTail ws (f + 3)).isSome) = none := by
    rw [List.find?_eq_none]
    intro f _ hp
    rw [Bool.and_eq_true, Bool.and_eq_true, Bool.and_eq_true] at hp
    exact h (mem_of_getD_eq (by decide) (of_decide_eq_true hp.1.1.2))
  rw [hf]

theorem pattern5Match_eq_none_of_no_to {ws : List String}
    (h : "to" ∉ ws) : pattern5Match ws = none := by
  rw [pattern5Match]
  have hf : (List.range ws.length).reverse.find? (fun k =>
      allClean (ws.take (k + 1)) &&
      decide (ws.getD (k + 1) "" = "to") &&
      decide (k + 2 < ws.length) &&
      allClean (ws.drop (k + 2))) = none := by
    rw [List.find?_eq_none]
    intro k _ hp
    rw [Bool.and_eq_true, Bool.and_eq_true, Bool.and_eq_true] at hp
    exact h (mem_of_getD_eq (by decide) (of_decide_eq_true hp.1.1.2))
  rw [hf]

theorem try_patterns_eq_none_of_no_to {ws : List String}
    (h : "to" ∉ ws) : try_patterns ws = none := by
  rw [try_patterns, pattern1Match_eq_none_of_no_to h, pattern2Match_eq_none_of_no_to h,
    pattern3Match_eq_none_of_no_to h, pattern4Match_eq_none_of_no_to h,
    pattern5Match_eq_none_of_no_to h]

theorem candidatesAux_eq_nil {ws : List String}
    (h : ∀ w ∈ ws, w ∉ location_indicators) : candidatesAux ws = [] := by
  induction ws with
  | nil => rfl
  | cons w rest ih =>
    rw [candidatesAux]
    have hc : location_indicators.contains w = false := by
      cases hb : location_indicators.contains w with
      | false => rfl
      | true => exact absurd (List.elem_iff.1 hb) (h w (List.mem_cons_self w rest))
    rw [hc]
    simpa using ih (fun x hx => h x (List.mem_cons_of_mem _ hx))

/-- Claim C6: for every input text containing no `to` separator token and
no location-indicator word, `parse_input` returns `(None, None, None)`;
in particular no default `DRIVE` mode is forced on this path. -/
theorem claim_C6_total_failure (s : String)
    (hto : "to" ∉ pyWords s)
    (hind : ∀ w ∈ pyWords s, w ∉ location_indicators) :
    parse_input s = (none, none, none) := by
  rw [parse_input]
  simp only [try_patterns_eq_none_of_no_to hto]
  rw [parseFallback]
  simp only [candidatesAux_eq_nil hind]

theorem claim_C6_total_failure_witness :
    ("to" ∉ pyWords "take the scenic coastal route please") ∧
    (∀ w ∈ pyWords "take the scenic coastal route please", w ∉ location_indicators) ∧
    parse_input "take the scenic coastal route please" = (none, none, none) :=
  ⟨by decide, by decide,
   claim_C6_total_failure "take the scenic coastal route please" (by decide) (by decide)⟩

end Akshar

namespace Akshar

theorem headClass_of_cleanWord {w : String} (hne : w ≠ "") (hc : cleanWord w = true) :
    headClass w = true := by
  rw [headClass]
  cases hw : w.toList with
  | nil =>
    exact absurd (String.ext (by simpa using hw)) hne
  | cons c cs =>
    rw [cleanWord, hw, List.all_cons, Bool.and_eq_true] at hc
    exact hc.1

theorem p5_none_of_p2_none {ws : List String} (hne : ∀ w ∈ ws, w ≠ "")
    (h2 : pattern2Match ws = none) : pattern5Match ws = none := by
  have hsplit : splitKs ws 0 = none := by
    cases hk : splitKs ws 0 with
    | none => rfl
    | some k =>
      rw [pattern2Match, tailMatch, hk] at h2
      simp at h2
  have hall := List.find?_eq_none.1 hsplit
  rw [pattern5Match]
  have hf : (List.range ws.length).reverse.find? (fun k =>
      allClean (ws.take (k + 1)) &&
      decide (ws.getD (k + 1) "" = "to") &&
      decide (k + 2 < ws.length) &&
      allClean (ws.drop (k + 2))) = none := by
    rw [List.find?_eq_none]
    intro k hk hp
    rw [Bool.and_eq_true, Bool.and_eq_true, Bool.and_eq_true] at hp
    obtain ⟨⟨⟨hclean, hto⟩, hlen⟩, hdropclean⟩ := hp
    have hlen' : k + 2 < ws.length := of_decide_eq_true hlen
    have hkmem : k ∈ (List.range ws.length).reverse :=
      List.mem_reverse.2 (List.mem_range.2 (by omega))
    apply hall k hkmem
    rw [Bool.and_eq_true, Bool.and_eq_true, Bool.and_eq_true, Bool.and_eq_true]
    have hgetd : ws.getD (k + 2) "" = ws[k + 2] := by
      rw [List.getD_eq_getElem?_getD, List.getElem?_eq_getElem hlen']
      rfl
    refine ⟨⟨⟨⟨by simp, ?_⟩, hto⟩, hlen⟩, ?_⟩
    · simpa using hclean
    · rw [hgetd]
      have hmem : ws[k + 2] ∈ ws.drop (k + 2) := by
        rw [List.drop_eq_getElem_cons hlen']
        exact List.mem_cons_self _ _
      have hcw : cleanWord ws[k + 2] = true :=
        List.all_eq_true.1 hdropclean _ hmem
      exact headClass_of_cleanWord (hne _ (List.getElem_mem hlen')) hcw
  rw [hf]

/-- Claim C10: pattern 5 never decides the result of `parse_input`:
every word list matched by the fully anchored pattern 5 is matched by
the start-anchored pattern 2, which the first-match-wins loop tries
earlier, so dropping pattern 5 gives an extensionally equal function. -/
theorem claim_C10_pattern5_redundant (s : String) :
    parse_input s = parse_input_noP5 s := by
  have hne := pyWords_ne_empty s
  have key : try_patterns (pyWords s) = try_patterns_noP5 (pyWords s) := by
    rw [try_patterns, try_patterns_noP5]
    cases h1 : pattern1Match (pyWords s) with
    | some r => rfl
    | none =>
      cases h2 : pattern2Match (pyWords s) with
      | some r => rfl
      | none =>
        cases h3 : pattern3Match (pyWords s) with
        | some r => rfl
        | none =>
          cases h4 : pattern4Match (pyWords s) with
          | some r => rfl
          | none => exact p5_none_of_p2_none hne h2
  rw [parse_input, parse_input_noP5, key]

/-- Claim C1 (divergence record): on the spec's own end-to-end example
the greedy second capturing group swallows the trailing `by car`
phrase, so the destination is `"mumbai by car"`, not `"mumbai"`; the
mode still resolves to `DRIVE` through the whole-input scan.  The same
happens on the fully explicit `from A to B by M` form. -/
theorem claim_C1_greedy_destination :
    parse_input "Pune to Mumbai by car" = (some "pune", some "mumbai by car", some "DRIVE") ∧
    parse_input "from pune to mumbai by car" =
      (some "pune", some "mumbai by car", some "DRIVE") := by
  constructor <;> rfl

/-- Claim C5 (divergence record): in the fallback path the matched mode
keyword is erased only from a string that is never read again — the
word list was split before the erasure — so the keyword can end up
inside a returned location phrase: here `walk` resolves the mode and
still appears in the returned destination. -/
theorem claim_C5_mode_keyword_survives :
    parse_input "from delhi near agra by walk" = (some "delhi", some "agra by walk", some "WALK") ∧
    strContains "agra by walk" "walk" = true := by
  constructor <;> rfl

end Akshar

namespace Akshar

theorem strContains_correct {s sub : String} :
    strContains s sub = true ↔ sub.toList <:+: s.toList := by
  rw [strContains, List.any_eq_true]
  constructor
  · rintro ⟨t, ht, hp⟩
    rw [List.mem_tails t s.toList] at ht
    exact List.infix_iff_prefix_suffix.2 ⟨t, List.isPrefixOf_iff_prefix.1 hp, ht⟩
  · intro h
    obtain ⟨t, hpre, hsuf⟩ := List.infix_iff_prefix_suffix.1 h
    exact ⟨t, (List.mem_tails t s.toList).2 hsuf, List.isPrefixOf_iff_prefix.2 hpre⟩

theorem strContains_trans {s a b : String}
    (h : strContains s a = true) (hba : strContains a b = true) :
    strContains s b = true :=
  strContains_correct.2 ((strContains_correct.1 hba).trans (strContains_correct.1 h))

theorem findEqSomeSplit {α : Type} (p : α → Bool) :
    ∀ (l : List α) (b : α), l.find? p = some b →
      p b = true ∧ ∃ l1 l2, l = l1 ++ b :: l2 ∧ ∀ x ∈ l1, p x = false := by
  intro l
  induction l with
  | nil => intro b h; simp at h
  | cons a l ih =>
    intro b h
    rw [List.find?_cons] at h
    cases hpa : p a with
    | true =>
      rw [hpa] at h
      simp only [Option.some.injEq] at h
      subst h
      exact ⟨hpa, [], l, rfl, by simp⟩
    | false =>
      rw [hpa] at h
      obtain ⟨hp, l1, l2, heq, hall⟩ := ih b h
      refine ⟨hp, a :: l1, l2, by rw [heq]; rfl, ?_⟩
      intro x hx
      rcases List.mem_cons.1 hx with rfl | hx
      · exact hpa
      · exact hall x hx

/-- Claim C9: mode detection is a substring scan of the normalized
input in the fixed insertion order of the mode table — the resolved
value belongs to the first table entry whose keyword occurs as a
substring (even inside a longer word), not to the keyword occurring
earliest in the input; consequently the `on foot` entry can never be
the selected one, since `foot` precedes it in the table and is a
substring of it.  The concrete input `walk from pune to carmel`
resolves to `DRIVE` through the `car` inside `carmel` although `walk`
appears first in the input. -/
theorem claim_C9_mode_table_order :
    (∀ s : String, (∃ kv ∈ transport_modes, strContains s kv.1 = true) →
      ∃ l1 kv l2, transport_modes = l1 ++ kv :: l2 ∧
        (∀ kv' ∈ l1, strContains s kv'.1 = false) ∧
        strContains s kv.1 = true ∧ find_mode s = some kv.2) ∧
    (∀ (s : String) (kv : String × String), findModeEntry s = some kv → kv.1 ≠ "on foot") ∧
    find_mode "walk from pune to carmel" = some "DRIVE" := by
  refine ⟨?_, ?_, by rfl⟩
  · intro s hex
    have hsome : (transport_modes.find? (fun kv => strContains s kv.1)).isSome :=
      List.find?_isSome.2 hex
    obtain ⟨kv, hkv⟩ := Option.isSome_iff_exists.1 hsome
    obtain ⟨hp, l1, l2, hsplit, hl1⟩ := findEqSomeSplit _ _ _ hkv
    exact ⟨l1, kv, l2, hsplit, hl1, hp, by rw [find_mode, findModeEntry, hkv]; rfl⟩
  · intro s kv hfind hon
    have hmem := List.mem_of_find?_eq_some hfind
    have hkv : kv = ("on foot", "WALK") := by
      have hchar : ∀ x ∈ transport_modes, x.1 = "on foot" → x = ("on foot", "WALK") := by decide
      exact hchar kv hmem hon
    subst hkv
    have hdecomp : transport_modes =
        [("car", "DRIVE"), ("driving", "DRIVE"), ("drive", "DRIVE"),
         ("walk", "WALK"), ("walking", "WALK")] ++ ("foot", "WALK") ::
        [("on foot", "WALK"),
         ("bicycle", "BICYCLE"), ("bike", "BICYCLE"), ("cycling", "BICYCLE"),
         ("bicycling", "BICYCLE"), ("cycle", "BICYCLE"),
         ("transit", "TRANSIT"), ("bus", "TRANSIT"), ("train", "TRANSIT"),
         ("public transport", "TRANSIT"), ("public transportation", "TRANSIT"),
         ("metro", "TRANSIT"), ("subway", "TRANSIT"), ("rail", "TRANSIT")] := rfl
    rw [findModeEntry, hdecomp, List.find?_append] at hfind
    cases hA : List.find? (fun kv => strContains s kv.1)
        [("car", "DRIVE"), ("driving", "DRIVE"), ("drive", "DRIVE"),
         ("walk", "WALK"), ("walking", "WALK")] with
    | some x =>
      rw [hA] at hfind
      have hfind2 : some x = some ("on foot", "WALK") := hfind
      simp only [Option.some.injEq] at hfind2
      subst hfind2
      have hxmem := List.mem_of_find?_eq_some hA
      revert hxmem
      decide
    | none =>
      rw [hA] at hfind
      have hfind2 : List.find? (fun kv => strContains s kv.1) (("foot", "WALK") ::
          [("on foot", "WALK"),
           ("bicycle", "BICYCLE"), ("bike", "BICYCLE"), ("cycling", "BICYCLE"),
           ("bicycling", "BICYCLE"), ("cycle", "BICYCLE"),
           ("transit", "TRANSIT"), ("bus", "TRANSIT"), ("train", "TRANSIT"),
           ("public transport", "TRANSIT"), ("public transportation", "TRANSIT"),
           ("metro", "TRANSIT"), ("subway", "TRANSIT"), ("rail", "TRANSIT")]) =
          some ("on foot", "WALK") := hfind
      rw [List.find?_cons] at hfind2
      cases hfoot : strContains s "foot" with
      | true =>
        rw [hfoot] at hfind2
        have : some ("foot", "WALK") = some ("on foot", "WALK") := hfind2
        simp at this
      | false =>
        rw [hfoot] at hfind2
        have hfind3 : List.find? (fun kv => strContains s kv.1)
            [("on foot", "WALK"),
             ("bicycle", "BICYCLE"), ("bike", "BICYCLE"), ("cycling", "BICYCLE"),
             ("bicycling", "BICYCLE"), ("cycle", "BICYCLE"),
             ("transit", "TRANSIT"), ("bus", "TRANSIT"), ("train", "TRANSIT"),
             ("public transport", "TRANSIT"), ("public transportation", "TRANSIT"),
             ("metro", "TRANSIT"), ("subway", "TRANSIT"), ("rail", "TRANSIT")] =
            some ("on foot", "WALK") := hfind2
        have hon2 := List.find?_some hfind3
        have hfoot2 : strContains s "foot" = true :=
          strContains_trans (a := "on foot") hon2 (by rfl)
        rw [hfoot] at hfoot2
        exact Bool.false_ne_true hfoot2

end Akshar

namespace Akshar

theorem claim_C9_mode_table_order_witness :
    (∃ l1 kv l2, transport_modes = l1 ++ kv :: l2 ∧
        (∀ kv' ∈ l1, strContains "walk from pune to carmel" kv'.1 = false) ∧
        strContains "walk from pune to carmel" kv.1 = true ∧
        find_mode "walk from pune to carmel" = some kv.2) ∧
    ("foot", "WALK").1 ≠ "on foot" :=
  ⟨claim_C9_mode_table_order.1 "walk from pune to carmel" ⟨("car", "DRIVE"), by decide, by rfl⟩,
   claim_C9_mode_table_order.2.1 "we go on foot today" ("foot", "WALK") (by rfl)⟩

/-- Claim C2: the sampler returns all points unchanged when there are
at most 5, and otherwise exactly the 5 points at indices `0`, `n/4`,
`n/2`, `3n/4`, `n-1`; for `n = 21` these indices are 0, 5, 10, 15, 20. -/
theorem claim_C2_sampler {α : Type} [Inhabited α] (l : List α) :
    (l.length ≤ 5 → get_route_points_sample l = l) ∧
    (∀ h5 : 5 < l.length,
      get_route_points_sample l =
        [l.get ⟨0, by omega⟩, l.get ⟨l.length / 4, by omega⟩,
         l.get ⟨l.length / 2, by omega⟩, l.get ⟨3 * l.length / 4, by omega⟩,
         l.get ⟨l.length - 1, by omega⟩]) ∧
    (l.length = 21 → get_route_points_sample l = [l[0]!, l[5]!, l[10]!, l[15]!, l[20]!]) := by
  refine ⟨?_, ?_, ?_⟩
  · intro h
    simp only [get_route_points_sample]
    rw [if_pos h]
  · intro h5
    simp only [get_route_points_sample]
    rw [if_neg (by omega)]
    rw [getElem!_pos l 0 (by omega), getElem!_pos l (l.length / 4) (by omega),
        getElem!_pos l (l.length / 2) (by omega), getElem!_pos l (3 * l.length / 4) (by omega),
        getElem!_pos l (l.length - 1) (by omega)]
    simp [List.get_eq_getElem]
  · intro h21
    simp only [get_route_points_sample]
    rw [if_neg (by omega)]
    rw [h21]

theorem claim_C2_sampler_witness :
    get_route_points_sample [10, 20, 30] = [10, 20, 30] ∧
    get_route_points_sample (List.range 21) = [0, 5, 10, 15, 20] := by
  constructor
  · exact (claim_C2_sampler [10, 20, 30]).1 (by norm_num)
  · have h := (claim_C2_sampler (List.range 21)).2.2 (by simp)
    rw [h]
    rfl

end Akshar

namespace Akshar

/-- Claim C8 (divergence record): a 450-meter route is formatted with
header total distance `"0.5 km"` — the header branch always uses
kilometres — while the 450-meter step is formatted `"450 m"`. -/
theorem claim_C8_header_always_km :
    (get_route_info_fmt "pune" "mumbai" exampleRoute450).distance = "0.5 km" ∧
    (get_route_info_fmt "pune" "mumbai" exampleRoute450).distance ≠ "450 m" ∧
    (get_route_info_fmt "pune" "mumbai" exampleRoute450).steps =
      [{ instruction := "Head north", distance := "450 m" },
       { instruction := "Continue onto the highway", distance := "12.3 km" }] := by
  refine ⟨rfl, ?_, rfl⟩
  decide

/-- Claim C8 as amended: each step distance is integer meters with
unit `m` below 1000 meters (450 → "450 m") and kilometres to one
decimal otherwise (12345 → "12.3 km"); the header total distance is
always kilometres to one decimal regardless of magnitude
(450 → "0.5 km"). -/
theorem claim_C8_amended (origin destination : String) (r : RouteIn) (m : ℕ) :
    (m < 1000 → format_step_distance m = toString m ++ " m") ∧
    (1000 ≤ m → format_step_distance m = formatKm1 m ++ " km") ∧
    (get_route_info_fmt origin destination r).distance = formatKm1 r.distanceMeters ++ " km" ∧
    format_step_distance 450 = "450 m" ∧
    format_step_distance 12345 = "12.3 km" ∧
    format_total_distance 450 = "0.5 km" ∧
    format_total_distance 12345 = "12.3 km" := by
  refine ⟨?_, ?_, rfl, rfl, rfl, rfl, rfl⟩
  · intro h
    rw [format_step_distance, if_pos h]
  · intro h
    rw [format_step_distance, if_neg (by omega)]

theorem claim_C8_amended_witness :
    format_step_distance 450 = toString 450 ++ " m" ∧
    format_step_distance 12345 = formatKm1 12345 ++ " km" :=
  ⟨(claim_C8_amended "a" "b" ⟨0, 0, []⟩ 450).1 (by norm_num),
   (claim_C8_amended "a" "b" ⟨0, 0, []⟩ 12345).2.1 (by norm_num)⟩

end Akshar

namespace Akshar

theorem mkPoi_place_id (p : Place) : (mkPoi p).place_id = p.place_id := rfl

theorem addPlace_subset (acc : List Poi) (x : Place) : acc ⊆ addPlace acc x := by
  rw [addPlace]
  split
  · exact fun a ha => ha
  · exact fun a ha => List.mem_append.2 (Or.inl ha)

theorem mem_addPlace {acc : List Poi} {x : Place} {q : Poi} (h : q ∈ addPlace acc x) :
    q ∈ acc ∨ (q = mkPoi x ∧ ∀ a ∈ acc, a.place_id ≠ x.place_id) := by
  rw [addPlace] at h
  split at h
  · exact Or.inl h
  · next hany =>
    rcases List.mem_append.1 h with h | h
    · exact Or.inl h
    · simp only [List.mem_singleton] at h
      refine Or.inr ⟨h, ?_⟩
      intro a ha heq
      exact hany (List.any_eq_true.2 ⟨a, ha, by simp [heq]⟩)

theorem foldl_points_eq (search : RoutePoint → Option (List Place)) :
    ∀ (pts : List RoutePoint) (acc : List Poi),
      pts.foldl (fun acc pt =>
        match search pt with
        | some places => places.foldl addPlace acc
        | none => acc) acc = (collectedPlaces pts search).foldl addPlace acc := by
  intro pts
  induction pts with
  | nil => intro acc; rfl
  | cons pt pts ih =>
    intro acc
    rw [List.foldl_cons]
    cases hs : search pt with
    | none =>
      simp only [hs]
      rw [ih]
      simp only [collectedPlaces, List.filterMap_cons, hs]
    | some places =>
      simp only [hs]
      rw [ih]
      simp only [collectedPlaces, List.filterMap_cons, hs, List.flatten_cons,
        List.foldl_append]

theorem gatherPois_eq (route_points : List RoutePoint)
    (search : RoutePoint → Option (List Place)) :
    gatherPois route_points search = (collectedPlaces route_points search).foldl addPlace [] := by
  rw [gatherPois, foldl_points_eq]

theorem mem_foldl_addPlace :
    ∀ (l : List Place) (acc : List Poi) (q : Poi),
      q ∈ l.foldl addPlace acc →
      q ∈ acc ∨ ((∀ a ∈ acc, a.place_id ≠ q.place_id) ∧
        ∃ p, l.find? (fun x => x.place_id == q.place_id) = some p ∧ q = mkPoi p) := by
  intro l
  induction l with
  | nil => intro acc q h; exact Or.inl h
  | cons x l ih =>
    intro acc q h
    rw [List.foldl_cons] at h
    rcases ih (addPlace acc x) q h with hin | ⟨hfresh, p, hfind, hq⟩
    · rcases mem_addPlace hin with hin | ⟨rfl, hnone⟩
      · exact Or.inl hin
      · refine Or.inr ⟨?_, x, ?_, rfl⟩
        · intro a ha
          rw [mkPoi_place_id]
          exact hnone a ha
        · rw [List.find?_cons]
          have hxq : (x.place_id == (mkPoi x).place_id) = true := by
            rw [mkPoi_place_id]
            exact beq_self_eq_true _
          rw [hxq]
    · have hfacc : ∀ a ∈ acc, a.place_id ≠ q.place_id :=
        fun a ha => hfresh a (addPlace_subset acc x ha)
      have hne : x.place_id ≠ q.place_id := by
        rw [addPlace] at hfresh
        by_cases hany : acc.any (fun poi => poi.place_id == x.place_id) = true
        · obtain ⟨a, ha, hab⟩ := List.any_eq_true.1 hany
          have hax : a.place_id = x.place_id := by simpa using hab
          rw [← hax]
          exact hfacc a ha
        · rw [if_neg hany] at hfresh
          have := hfresh (mkPoi x) (List.mem_append.2 (Or.inr (List.mem_singleton.2 rfl)))
          rwa [mkPoi_place_id] at this
      refine Or.inr ⟨hfacc, p, ?_, hq⟩
      rw [List.find?_cons]
      have hxq : (x.place_id == q.place_id) = false := by
        simpa using hne
      rw [hxq]
      exact hfind

theorem nodup_foldl_addPlace :
    ∀ (l : List Place) (acc : List Poi),
      (acc.map (fun q => q.place_id)).Nodup →
      ((l.foldl addPlace acc).map (fun q => q.place_id)).Nodup := by
  intro l
  induction l with
  | nil => intro acc h; exact h
  | cons x l ih =>
    intro acc h
    rw [List.foldl_cons]
    apply ih
    rw [addPlace]
    split
    · exact h
    · next hany =>
      rw [List.map_append, List.nodup_append]
      refine ⟨h, by simp, ?_⟩
      intro a ha hb
      simp only [List.map_cons, List.map_nil, List.mem_singleton, mkPoi_place_id] at hb
      subst hb
      obtain ⟨q, hq, hqa⟩ := List.mem_map.1 ha
      exact hany (List.any_eq_true.2 ⟨q, hq, by simp [hqa]⟩)

theorem mem_insertPoiDesc {x q : Poi} :
    ∀ {l : List Poi}, q ∈ insertPoiDesc x l ↔ q = x ∨ q ∈ l := by
  intro l
  induction l with
  | nil => simp [insertPoiDesc]
  | cons y ys ih =>
    rw [insertPoiDesc]
    split
    · simp
    · rw [List.mem_cons, ih]
      constructor
      · rintro (rfl | h | h)
        · exact Or.inr (List.mem_cons_self _ _)
        · exact Or.inl h
        · exact Or.inr (List.mem_cons_of_mem _ h)
      · rintro (h | h)
        · exact Or.inr (Or.inl h)
        · rcases List.mem_cons.1 h with rfl | h
          · exact Or.inl rfl
          · exact Or.inr (Or.inr h)

theorem insertPoiDesc_perm (x : Poi) (l : List Poi) : List.Perm (insertPoiDesc x l) (x :: l) := by
  induction l with
  | nil => rfl
  | cons y ys ih =>
    rw [insertPoiDesc]
    split
    · rfl
    · exact (ih.cons y).trans (List.Perm.swap x y ys)

theorem sortPois_perm (l : List Poi) : List.Perm (sortPois l) l := by
  induction l with
  | nil => rfl
  | cons x xs ih =>
    rw [sortPois]
    exact (insertPoiDesc_perm x (sortPois xs)).trans (ih.cons x)

theorem pairwise_insertPoiDesc {x : Poi} :
    ∀ {l : List Poi}, List.Pairwise (fun a b => poiScore b ≤ poiScore a) l →
      List.Pairwise (fun a b => poiScore b ≤ poiScore a) (insertPoiDesc x l) := by
  intro l
  induction l with
  | nil => intro _; simp [insertPoiDesc]
  | cons y ys ih =>
    intro h
    obtain ⟨hy, hys⟩ := List.pairwise_cons.1 h
    rw [insertPoiDesc]
    split
    · next hlt =>
      rw [List.pairwise_cons]
      refine ⟨?_, h⟩
      intro z hz
      rcases List.mem_cons.1 hz with rfl | hz
      · exact le_of_lt hlt
      · exact le_trans (hy z hz) (le_of_lt hlt)
    · next hge =>
      rw [List.pairwise_cons]
      refine ⟨?_, ih hys⟩
      intro z hz
      rcases mem_insertPoiDesc.1 hz with rfl | hz
      · exact not_lt.1 hge
      · exact hy z hz

theorem sortPois_sorted (l : List Poi) :
    List.Pairwise (fun a b => poiScore b ≤ poiScore a) (sortPois l) := by
  induction l with
  | nil => simp [sortPois]
  | cons x xs ih =>
    rw [sortPois]
    exact pairwise_insertPoiDesc ih

end Akshar

namespace Akshar

/-- Claim C3: the returned POI list never contains two entries with the
same `place_id`, and every returned entry is the formatted first
occurrence of its `place_id` in sampled-point iteration order — later
duplicates are dropped whole, no fields are merged. -/
theorem claim_C3_dedup (route_points : List RoutePoint)
    (search : RoutePoint → Option (List Place)) (max_results : ℕ) :
    ((find_poi_along_route route_points search max_results).map (fun q => q.place_id)).Nodup ∧
    ∀ q ∈ find_poi_along_route route_points search max_results,
      ∃ p, (collectedPlaces route_points search).find?
            (fun x => x.place_id == q.place_id) = some p ∧ q = mkPoi p := by
  rw [find_poi_along_route]
  split
  · simp
  · rw [gatherPois_eq]
    constructor
    · have hnd : (((collectedPlaces route_points search).foldl addPlace []).map
          (fun q => q.place_id)).Nodup :=
        nodup_foldl_addPlace _ [] (by simp)
      have hperm := sortPois_perm ((collectedPlaces route_points search).foldl addPlace [])
      have hnd2 : ((sortPois ((collectedPlaces route_points search).foldl addPlace [])).map
          (fun q => q.place_id)).Nodup :=
        hnd.perm ((hperm.map (fun q : Poi => q.place_id)).symm)
      exact ((List.take_sublist _ _).map (fun q : Poi => q.place_id)).nodup hnd2
    · intro q hq
      have hq1 : q ∈ sortPois ((collectedPlaces route_points search).foldl addPlace []) :=
        List.mem_of_mem_take hq
      have hq2 : q ∈ (collectedPlaces route_points search).foldl addPlace [] :=
        (sortPois_perm _).mem_iff.1 hq1
      rcases mem_foldl_addPlace _ [] q hq2 with h | ⟨_, p, hfind, hq3⟩
      · exact absurd h (List.not_mem_nil q)
      · exact ⟨p, hfind, hq3⟩

theorem claim_C3_dedup_witness :
    ∃ p, (collectedPlaces [examplePointA, examplePointB] exampleSearchDup).find?
        (fun x => x.place_id == (mkPoi placeHigh).place_id) = some p ∧
      mkPoi placeHigh = mkPoi p := by
  apply (claim_C3_dedup [examplePointA, examplePointB] exampleSearchDup 10).2 (mkPoi placeHigh)
  have hg : gatherPois [examplePointA, examplePointB] exampleSearchDup =
      [mkPoi placeHigh, mkPoi placeLow] := by rfl
  rw [find_poi_along_route, if_neg (by simp), hg]
  rw [List.take_of_length_le (by rw [(sortPois_perm _).length_eq]; norm_num)]
  exact (sortPois_perm _).mem_iff.2 (List.mem_cons_self _ _)

/-- Claim C4: the returned list is sorted in descending order of the
composite score `rating * min(ratingCount, 100)`; a POI with no rating
gets rating 0 and score 0 and is kept, sorting last; concretely a 4.5
rating with 200 reviews (score 450) outranks a 4.8 rating with 10
reviews (score 48), and the unrated POI comes last but is present. -/
theorem claim_C4_ranking :
    (∀ (route_points : List RoutePoint) (search : RoutePoint → Option (List Place))
        (max_results : ℕ),
      List.Pairwise (fun a b => poiScore b ≤ poiScore a)
        (find_poi_along_route route_points search max_results)) ∧
    (∀ p : Place, p.rating = none → (mkPoi p).rating = 0 ∧ poiScore (mkPoi p) = 0) ∧
    find_poi_along_route [examplePointA] exampleSearchRank 10 =
      [mkPoi placeHigh, mkPoi placeLow, mkPoi placeUnrated] := by
  have hscoreH : poiScore (mkPoi placeHigh) = 450 := by
    rw [poiScore, show (mkPoi placeHigh).rating = 4.5 from rfl,
      show min (mkPoi placeHigh).user_ratings_total 100 = 100 from rfl]
    norm_num
  have hscoreL : poiScore (mkPoi placeLow) = 48 := by
    rw [poiScore, show (mkPoi placeLow).rating = 4.8 from rfl,
      show min (mkPoi placeLow).user_ratings_total 100 = 10 from rfl]
    norm_num
  have hscoreU : poiScore (mkPoi placeUnrated) = 0 := by
    rw [poiScore, show (mkPoi placeUnrated).rating = 0 from rfl]
    norm_num
  refine ⟨?_, ?_, ?_⟩
  · intro pts search m
    rw [find_poi_along_route]
    split
    · simp
    · exact List.Pairwise.sublist (List.take_sublist _ _) (sortPois_sorted _)
  · intro p hp
    constructor
    · rw [mkPoi]
      simp [hp]
    · rw [poiScore, mkPoi]
      simp [hp]
  · have hg : gatherPois [examplePointA] exampleSearchRank =
        [mkPoi placeLow, mkPoi placeHigh, mkPoi placeUnrated] := by rfl
    rw [find_poi_along_route, if_neg (by simp), hg]
    have h1 : insertPoiDesc (mkPoi placeUnrated) [] = [mkPoi placeUnrated] := rfl
    have h2 : insertPoiDesc (mkPoi placeHigh) [mkPoi placeUnrated] =
        [mkPoi placeHigh, mkPoi placeUnrated] := by
      rw [insertPoiDesc, if_pos (by rw [hscoreH, hscoreU]; norm_num)]
    have h3 : insertPoiDesc (mkPoi placeLow) [mkPoi placeHigh, mkPoi placeUnrated] =
        [mkPoi placeHigh, mkPoi placeLow, mkPoi placeUnrated] := by
      rw [insertPoiDesc, if_neg (by rw [hscoreH, hscoreL]; norm_num), insertPoiDesc,
        if_pos (by rw [hscoreL, hscoreU]; norm_num)]
    rw [show sortPois [mkPoi placeLow, mkPoi placeHigh, mkPoi placeUnrated] =
        insertPoiDesc (mkPoi placeLow) (insertPoiDesc (mkPoi placeHigh)
          (insertPoiDesc (mkPoi placeUnrated) (sortPois []))) from rfl,
      show sortPois ([] : List Poi) = [] from rfl, h1, h2, h3]
    rfl

theorem claim_C4_ranking_witness :
    (mkPoi placeUnrated).rating = 0 ∧ poiScore (mkPoi placeUnrated) = 0 :=
  claim_C4_ranking.2.1 placeUnrated rfl

/-- Claim C7: the aggregation never propagates a collaborator error —
an empty route geometry (failed or empty Directions call) yields the
empty list immediately, and a failed per-point query is skipped without
discarding the POIs gathered from the other points. -/
theorem claim_C7_fail_soft :
    (∀ (search : RoutePoint → Option (List Place)) (max_results : ℕ),
      find_poi_along_route [] search max_results = []) ∧
    (∀ (pts1 : List RoutePoint) (pt : RoutePoint) (pts2 : List RoutePoint)
        (search : RoutePoint → Option (List Place)) (max_results : ℕ),
      search pt = none →
      find_poi_along_route (pts1 ++ pt :: pts2) search max_results =
        find_poi_along_route (pts1 ++ pts2) search max_results) := by
  constructor
  · intro search m
    rfl
  · intro pts1 pt pts2 search m hfail
    have hg : gatherPois (pts1 ++ pt :: pts2) search = gatherPois (pts1 ++ pts2) search := by
      rw [gatherPois, gatherPois, List.foldl_append, List.foldl_append, List.foldl_cons]
      simp only [hfail]
    by_cases hE : (pts1 ++ pts2) = []
    · obtain ⟨h1, h2⟩ := List.append_eq_nil.1 hE
      subst h1
      subst h2
      simp [find_poi_along_route, gatherPois, hfail, sortPois]
    · have h1 : (pts1 ++ pt :: pts2).isEmpty = false := by simp
      have h2 : (pts1 ++ pts2).isEmpty = false := by simp [hE]
      rw [find_poi_along_route, find_poi_along_route, hg, h1, h2]

theorem claim_C7_fail_soft_witness :
    find_poi_along_route [examplePointA, examplePointB] exampleSearchFail 10 =
      find_poi_along_route [examplePointA] exampleSearchFail 10 := by
  have h := claim_C7_fail_soft.2 [examplePointA] examplePointB [] exampleSearchFail 10
    (by simp [exampleSearchFail])
  simpa using h

end Akshar
